import Mathlib

/-!
Verification of the failed-test retry and parallel-worker subsystem of the
Playwright/Cucumber automation framework.

The definitions below are shallow embeddings of:
  * `RetryHelpers` (saveFailedTest, getFailedTests, clearFailedTests,
    generateRetryCommand, parseFailedTestsFromReport, generateRetryReport);
  * `ParallelHelpers` (getOptimalWorkerCount, getWorkerCount, isCI,
    getCIWorkerCount, getRecommendedWorkerCount, splitScenariosAcrossWorkers);
  * `EnvironmentManager` (loadEnvironment, getConfig, getCurrentEnvironment,
    mergeConfigs);
  * the retry CLI shell script (clear_failed_tests, extract_failed_tests,
    retry_failed_tests, main).

File-system effects are modelled by explicit state values; JavaScript
truthiness (`""`, `0`, `undefined` are falsy) is modelled explicitly where
the source relies on it.
-/

/-- JS truthiness for an optional string: `undefined` and `""` are falsy. -/
def truthyOpt : Option String → Option String
  | none => none
  | some s => if s = "" then none else some s

/-- JS `a || b` for an optional string `a` against a string default `b`. -/
def jsOrStr (a : Option String) (b : String) : String :=
  match truthyOpt a with
  | some s => s
  | none => b

/-! ## Structured cucumber report model (consumed shape)

A report is a sequence of features; each feature has optional `elements`
(scenarios); each scenario has optional `steps`; each step has an optional
`result` with a `status` and an optional `error_message`. -/

structure StepResult where
  status : String
  error_message : Option String
deriving Repr, DecidableEq

structure Step where
  result : Option StepResult
deriving Repr, DecidableEq

structure Scenario where
  name : String
  line : Option Nat
  steps : Option (List Step)
deriving Repr, DecidableEq

structure Feature where
  uri : Option String
  name : String
  elements : Option (List Scenario)
deriving Repr, DecidableEq

/-- `step.result?.status === 'failed'` -/
def stepFailed (step : Step) : Bool :=
  match step.result with
  | some res => res.status == "failed"
  | none => false

/-- Record shape written to `test-results/failed-tests.json`. -/
structure FailedTest where
  scenarioName : String
  featureFile : String
  line : Nat
  error : String
  timestamp : String
  attempt : Nat
deriving Repr, DecidableEq

/-- The contents found at a report path: missing file, malformed JSON, or a
parsed report. -/
inductive ReportFile where
  | missing : ReportFile
  | malformed : ReportFile
  | parsed : List Feature → ReportFile
deriving Repr, DecidableEq

/-- `RetryHelpers.parseFailedTestsFromReport`, translated from the source.
The surrounding try/catch together with the `existsSync` guard make the
missing-file and malformed-JSON cases return `[]` after logging.  `now`
stands for `new Date().toISOString()`. -/
def parseFailedTestsFromReport (file : ReportFile) (now : String) : List FailedTest :=
  match file with
  | .missing => []
  | .malformed => []
  | .parsed reportData =>
      reportData.flatMap fun feature =>
        (feature.elements.getD []).filterMap fun scenario =>
          let hasFailedSteps := (scenario.steps.getD []).any stepFailed
          if hasFailedSteps then
            let failedStep := (scenario.steps.getD []).find? stepFailed
            some { scenarioName := scenario.name
                   featureFile := jsOrStr feature.uri feature.name
                   line := scenario.line.getD 0
                   error := jsOrStr (failedStep.bind fun st =>
                     st.result.bind fun res => res.error_message) "Unknown error"
                   timestamp := now
                   attempt := 1 }
          else none

/-! ## Failed-test registry (`test-results/failed-tests.json`) -/

/-- On-disk state of the failed-test registry file. -/
inductive RegistryFile where
  | missing : RegistryFile
  | malformed : RegistryFile
  | ok : List FailedTest → RegistryFile
deriving Repr, DecidableEq

/-- `RetryHelpers.getFailedTests`: reads the registry if the file exists;
a read/parse failure is caught (warning logged) and, like a missing file,
yields `[]`. -/
def getFailedTests : RegistryFile → List FailedTest
  | .missing => []
  | .malformed => []
  | .ok tests => tests

/-- `RetryHelpers.saveFailedTest`: loads the existing list, pushes the new
record at the end, and rewrites the file. -/
def saveFailedTest (reg : RegistryFile) (failedTest : FailedTest) : RegistryFile :=
  .ok (getFailedTests reg ++ [failedTest])

/-- Existence of the two durable files the retry CLI manages. -/
structure RetryFiles where
  failedTestsFile : Bool
  retryReportFile : Bool
deriving Repr, DecidableEq

/-- `clear_failed_tests` from `scripts/parallel-test.sh` (the retry CLI's
`--clear` operation): removes the registry and the retry summary, each
behind an existence check, so absent files are skipped without error. -/
def clear_failed_tests (s : RetryFiles) : RetryFiles :=
  let s1 := if s.failedTestsFile then { s with failedTestsFile := false } else s
  if s1.retryReportFile then { s1 with retryReportFile := false } else s1

/-- `RetryHelpers.clearFailedTests`: unlinks only the registry file, behind
an existence check. -/
def clearFailedTests (s : RetryFiles) : RetryFiles :=
  if s.failedTestsFile then { s with failedTestsFile := false } else s

/-! ## Retry command construction -/

/-- `[...new Set(xs)]`: deduplication keeping first occurrences in order. -/
def jsSetDedup (l : List String) : List String :=
  l.foldl (fun acc s => if s ∈ acc then acc else acc ++ [s]) []

/-- `Array.prototype.join(sep)`: empty for `[]`, the sole element for a
singleton, otherwise the elements with `sep` between them. -/
def jsJoin (sep : String) : List String → String
  | [] => ""
  | [a] => a
  | a :: rest => a ++ sep ++ jsJoin sep rest

/-- `.replace(/"/g, ...)`: drop every double-quote character. -/
def stripQuotes (s : String) : String :=
  String.mk (s.toList.filter fun c => c != Char.ofNat 34)

/-- Wrap a string in double quotes, as the template literal in
`generateRetryCommand` does per scenario name. -/
def quoteWrap (s : String) : String :=
  String.mk (Char.ofNat 34 :: s.toList ++ [Char.ofNat 34])

/-- `RetryHelpers.generateRetryCommand`, translated from the source: quotes
each failing scenario name, joins them with spaces, then strips every quote
and embeds the result as a single `--name` argument. -/
def generateRetryCommand (reg : RegistryFile) : Option String :=
  let failedTests := getFailedTests reg
  if failedTests.length = 0 then none
  else
    let featureFiles := jsSetDedup (failedTests.map fun test => test.featureFile)
    let scenarios := jsJoin " " (failedTests.map fun test => quoteWrap test.scenarioName)
    let features := jsJoin " " featureFiles
    some ("cucumber-js " ++ features ++ " --name " ++ quoteWrap (stripQuotes scenarios))

/-- Modelled from the spec: the test runner (cucumber-js) treats `--name` as
an unanchored regular expression, so a pattern of literal characters
selects a scenario exactly when it occurs as a contiguous substring of the
scenario's name.  `segLead pat s` says `pat` is an initial segment of
`s`. -/
def segLead : List Char → List Char → Bool
  | [], _ => true
  | _ :: _, [] => false
  | a :: as, b :: bs => a == b && segLead as bs

/-- `pat` occurs somewhere in the character list. -/
def segOccurs (pat : List Char) : List Char → Bool
  | [] => segLead pat []
  | c :: cs => segLead pat (c :: cs) || segOccurs pat cs

/-- `pat` occurs as a contiguous substring of `s`. -/
def strHasSeg (s pat : String) : Bool :=
  segOccurs pat.toList s.toList

/-! ## Retry summary (`reports/retry-report.json`) -/

/-- The record written by `generateRetryReport`.  `successRate` holds the
numeric value rendered by `toFixed(2)`. -/
structure RetryReport where
  timestamp : String
  originalFailures : Nat
  retriedTests : Nat
  stillFailing : Nat
  recovered : Int
  successRate : ℚ
  recoveredDetails : List FailedTest

/-- `Number.prototype.toFixed(2)` on the exact rational value: nearest
hundredth, ties toward the larger value (the ECMAScript rule), ignoring
binary floating-point representation error. -/
def jsToFixed2 (q : ℚ) : ℚ :=
  ((⌊q * 100 + 1 / 2⌋ : ℤ) : ℚ) / 100

/-- `RetryHelpers.generateRetryReport`, translated from the source.  `now`
stands for `new Date().toISOString()`.  (In the source `successRate` is
computed with IEEE division, giving `NaN` when `originalFailed` is empty;
here rational division by zero yields `0` — the claims only concern a
positive number of original failures.) -/
def generateRetryReport (originalFailed retryResults : List FailedTest) (now : String) : RetryReport :=
  { timestamp := now
    originalFailures := originalFailed.length
    retriedTests := originalFailed.length
    stillFailing := retryResults.length
    recovered := (originalFailed.length : Int) - (retryResults.length : Int)
    successRate := jsToFixed2
      ((((originalFailed.length : Int) - (retryResults.length : Int) : Int) : ℚ)
        / (originalFailed.length : ℚ) * 100)
    recoveredDetails := originalFailed.filter fun original =>
      ! retryResults.any fun retry => retry.scenarioName == original.scenarioName }

/-! ## ParallelHelpers: worker-count heuristics -/

/-- The machine and process environment observed by `ParallelHelpers`.
`totalMemBytes` is `os.totalmem()`; division by `1024^3` and by `0.5` is
exact in IEEE doubles, so the worker arithmetic is exact integer
arithmetic over bytes. -/
structure SysEnv where
  ciVar : Option String
  githubActions : Option String
  jenkinsUrl : Option String
  buildkite : Option String
  circleci : Option String
  ciWorkers : Option String
  cucumberWorkers : Option String
  playwrightWorkers : Option String
  cpuCount : Nat
  totalMemBytes : Nat
deriving Repr, DecidableEq

/-- JS truthiness of an environment variable. -/
def jsTruthy (o : Option String) : Bool :=
  (truthyOpt o).isSome

/-- JS `a || b` on two optional strings. -/
def jsOrOpt (a b : Option String) : Option String :=
  match truthyOpt a with
  | some s => some s
  | none => b

/-- Accumulate the value of a run of decimal digits. -/
def digitsVal : List Char → Nat → Nat
  | [], acc => acc
  | c :: cs, acc => digitsVal cs (acc * 10 + (c.toNat - Char.toNat (Char.ofNat 48)))

/-- `parseInt(s, 10)`: skip leading whitespace, read an optional sign and
then the maximal run of leading decimal digits; `none` models `NaN` (no
digit found). -/
def jsParseInt (s : String) : Option Int :=
  let t := s.toList.dropWhile Char.isWhitespace
  let signAndRest : Int × List Char :=
    match t with
    | c :: cs =>
        if c == Char.ofNat 45 then (-1, cs)
        else if c == Char.ofNat 43 then (1, cs) else (1, c :: cs)
    | [] => (1, [])
  let ds := signAndRest.2.takeWhile Char.isDigit
  if ds.isEmpty then none else some (signAndRest.1 * (digitsVal ds 0 : Int))

/-- `ParallelHelpers.getOptimalWorkerCount`: 50% of the CPU cores (at least
one), clamped to `floor(totalMemoryGB / 0.5)` (i.e. bytes / 2^29) and then
to 8. -/
def getOptimalWorkerCount (e : SysEnv) : Nat :=
  let workers := max 1 (e.cpuCount / 2)
  let maxWorkersByMemory := e.totalMemBytes / 2 ^ 29
  let workers := min workers maxWorkersByMemory
  min workers 8

/-- `ParallelHelpers.getWorkerCount`: an explicit `CUCUMBER_WORKERS` /
`PLAYWRIGHT_WORKERS` override that parses is clamped below by one and used;
an unparsable one falls back to the optimal count. -/
def getWorkerCount (e : SysEnv) : Nat :=
  match truthyOpt (jsOrOpt e.cucumberWorkers e.playwrightWorkers) with
  | some s =>
      match jsParseInt s with
      | none => getOptimalWorkerCount e
      | some count => (max 1 count).toNat
  | none => getOptimalWorkerCount e

/-- `ParallelHelpers.isCI`. -/
def isCI (e : SysEnv) : Bool :=
  jsTruthy e.ciVar || jsTruthy e.githubActions || jsTruthy e.jenkinsUrl
    || jsTruthy e.buildkite || jsTruthy e.circleci

/-- `ParallelHelpers.getCIWorkerCount`: `Math.max(1, parseInt(CI_WORKERS))`
with no `isNaN` guard — an unparsable `CI_WORKERS` propagates `NaN`,
modelled as `none`. -/
def getCIWorkerCount (e : SysEnv) : Option Int :=
  match truthyOpt e.ciWorkers with
  | some s =>
      match jsParseInt s with
      | some count => some (max 1 count)
      | none => none
  | none => some 2

/-- `ParallelHelpers.getRecommendedWorkerCount`. -/
def getRecommendedWorkerCount (e : SysEnv) : Option Int :=
  if isCI e then getCIWorkerCount e else some (getWorkerCount e : Int)

/-- The body of the `forEach` in `splitScenariosAcrossWorkers`: push the
element onto chunk `index % workerCount` (the `if (chunk)` guard means an
out-of-range index is a no-op, as `List.set` is). -/
def rrStep {α : Type} (workerCount : Nat) (cs : List (List α)) (p : Nat × α) : List (List α) :=
  cs.set (p.1 % workerCount) (cs.getD (p.1 % workerCount) [] ++ [p.2])

/-- `ParallelHelpers.splitScenariosAcrossWorkers`: round-robin assignment
by index modulo the worker count into `workerCount` chunks, then empty
chunks are filtered out. -/
def splitScenariosAcrossWorkers {α : Type} (scenarios : List α) (workerCount : Nat) : List (List α) :=
  let chunks : List (List α) := (List.range workerCount).map fun _ => []
  let chunks := scenarios.enum.foldl (rrStep workerCount) chunks
  chunks.filter fun c => decide (0 < c.length)

/-- The elements of `l` whose position is congruent to `r` modulo `w`, in
input order: the intended content of worker `r`'s chunk. -/
def residueChunk {α : Type} (l : List α) (w r : Nat) : List α :=
  (l.enum.filter fun p => p.1 % w == r).map Prod.snd

/-! ## The retry CLI script (`retry` half of `scripts/parallel-test.sh`) -/

/-- The registry file's existence, as `[[ -f "$FAILED_TESTS_FILE" ]]` sees
it: a malformed file still exists. -/
def registryFileExists : RegistryFile → Bool
  | .missing => false
  | .malformed => true
  | .ok _ => true

/-- The cucumber invocation template inside the shell's retry-command
generator.  The script escapes both placeholders (`\$\x7bscenarios\x7d` and
`\$\x7battempt\x7d`), so neither is expanded by the shell: node must supply
the bindings.  `scenarios` is a `const` of the embedded node script, but
`attempt` is only a shell loop variable, never in node's scope — with no
binding for it, evaluating the template throws
`ReferenceError: attempt is not defined` instead of producing the command
string. -/
def retryCommandTemplate (scenarios : String) (attemptBinding : Option String) :
    Except String String :=
  match attemptBinding with
  | some a =>
      .ok ("cucumber-js --config cucumber.config.js --name " ++ quoteWrap scenarios
        ++ " --format json:reports/retry-" ++ a ++ ".json")
  | none => .error "ReferenceError: attempt is not defined"

/-- Stdout of the `node -e` retry-command generator: the command is printed
only when the registry file exists, parses, is non-empty, and the template
evaluates; a thrown error (unparsable JSON, or the `ReferenceError` on the
unbound `attempt`) leaves stdout empty. -/
def generatorStdout (reg : RegistryFile) (attemptBinding : Option String) : Option String :=
  match reg with
  | .missing => none
  | .malformed => none
  | .ok failedTests =>
      if failedTests.length > 0 then
        match retryCommandTemplate
            (jsJoin "|" (failedTests.map fun test => test.scenarioName))
            attemptBinding with
        | .ok cmd => some cmd
        | .error _ => none
      else none

/-- `retry_command` as the script computes it: the generator runs with
node's `attempt` unbound, and `local retry_command=$(...)` masks the
generator's exit status, so `set -e` does not fire on the crash. -/
def shellRetryCommand (reg : RegistryFile) : Option String :=
  generatorStdout reg none

/-- `retry_failed_tests` from the script.  It returns 0 straight away when
the registry file is absent, and the `for` loop body is skipped entirely
when `maxRetries = 0`.  Otherwise the first iteration runs:
`node src/config/environment-loader.js "$ENVIRONMENT"` is a plain command,
so under `set -e` its failure (the loader exits 1 for a missing or
unparsable environment config) aborts the script with status 1; then
`retry_command` is computed — since the generator never emits a command,
the `[[ -n "$retry_command" ]]` test fails and the `else` branch prints
"No tests to retry" and `break`s, ending the loop with status 0.  The
`then` branch (`eval`, `extract_failed_tests_from_retry`, `sleep`) and all
later iterations are unreachable; `evalPathExit` abstracts whatever exit
status that dead branch would produce, and the theorems hold for every
value of it. -/
def retry_failed_tests (reg : RegistryFile) (envLoaderOk : Bool)
    (evalPathExit : Nat) (maxRetries : Nat) : Nat :=
  if registryFileExists reg then
    if maxRetries = 0 then 0
    else if envLoaderOk then
      match shellRetryCommand reg with
      | some _ => evalPathExit
      | none => 0
    else 1
  else 0

/-- What the initial extraction (`extract_failed_tests`) finds.  For a
malformed report the embedded node process exits 1 — the same status as
"failures found" — without writing the registry, so the script proceeds to
the retry phase with whatever stale registry file exists; for a report
with failures the registry now holds exactly the extracted records. -/
inductive InitialReport where
  | missing : InitialReport
  | malformed : RegistryFile → InitialReport
  | noFailures : InitialReport
  | hasFailures : List FailedTest → InitialReport

/-- `main` of the retry script (statistics and clear flags out of scope):
a missing report exits 1 from inside `extract_failed_tests`; a clean
report exits 0; otherwise the retry phase decides the exit code. -/
def retryScriptMain (report : InitialReport) (envLoaderOk : Bool)
    (evalPathExit : Nat) (maxRetries : Nat) : Nat :=
  match report with
  | .missing => 1
  | .noFailures => 0
  | .malformed staleRegistry =>
      retry_failed_tests staleRegistry envLoaderOk evalPathExit maxRetries
  | .hasFailures written =>
      retry_failed_tests (.ok written) envLoaderOk evalPathExit maxRetries

/-! ## EnvironmentManager (`src/config/EnvironmentConfig.ts`) -/

/-- A JSON value, the shape `loadConfigFile` returns and `mergeConfigs`
manipulates.  Objects are ordered key/value lists with unique keys. -/
inductive JValue where
  | null : JValue
  | bool : Bool → JValue
  | num : ℚ → JValue
  | str : String → JValue
  | arr : List JValue → JValue
  | obj : List (String × JValue) → JValue

/-- JS object assignment `o[k] = v`: replace the existing entry in place or
append a new one. -/
def setKey : List (String × JValue) → String → JValue → List (String × JValue)
  | [], k, v => [(k, v)]
  | (k0, v0) :: rest, k, v =>
      if k0 = k then (k0, v) :: rest else (k0, v0) :: setKey rest k v

/-- JS object read `o[k]`. -/
def getKey : List (String × JValue) → String → Option JValue
  | [], _ => none
  | (k0, v0) :: rest, k => if k0 = k then some v0 else getKey rest k

/-- The own enumerable fields produced by spreading a value (`{...x}`):
objects give their fields, arrays and strings give index-keyed entries,
primitives give nothing. -/
def jsSpreadFields : JValue → List (String × JValue)
  | .obj fields => fields
  | .arr xs => xs.enum.map fun p => (toString p.1, p.2)
  | .str s => s.toList.enum.map fun p => (toString p.1, JValue.str (String.singleton p.2))
  | _ => []

/-- Build a JS object from a field list, later entries overriding earlier
ones key-by-key. -/
def objFromFields (fields : List (String × JValue)) : List (String × JValue) :=
  fields.foldl (fun acc kv => setKey acc kv.1 kv.2) []

/-- `typeof v === 'object' && !Array.isArray(v)`: objects and `null`. -/
def isNonArrayObject : JValue → Bool
  | .obj _ => true
  | .null => true
  | _ => false

/-- `EnvironmentManager.mergeConfigs`: start from a shallow copy of the
base; for each key of the override, a non-array object value is merged one
level deep (`{...merged[key], ...override[key]}`), anything else replaces
the base value wholesale. -/
def mergeConfigs (base override : JValue) : JValue :=
  let merged := objFromFields (jsSpreadFields base)
  JValue.obj <|
    (jsSpreadFields override).foldl
      (fun m kv =>
        if isNonArrayObject kv.2 then
          let current := match getKey m kv.1 with
            | some v => jsSpreadFields v
            | none => []
          setKey m kv.1 (JValue.obj (objFromFields (current ++ jsSpreadFields kv.2)))
        else setKey m kv.1 kv.2)
      merged

/-- A configuration file on disk. -/
inductive ConfigFile where
  | missing : ConfigFile
  | malformed : ConfigFile
  | parsed : JValue → ConfigFile

/-- `loadConfigFile`: throws when the file does not exist or its content
fails to parse. -/
def loadConfigFile : ConfigFile → Except String JValue
  | .missing => .error "Configuration file not found"
  | .malformed => .error "JSON parse error"
  | .parsed v => .ok v

/-- The config directory: `environments/base.json` plus one file per
environment name. -/
structure ConfigDir where
  base : ConfigFile
  envFile : String → ConfigFile

/-- The process environment variables consulted for the default
environment name. -/
structure NodeProcEnv where
  testEnv : Option String
  nodeEnv : Option String

/-- The manager's singleton state: the cached merged config and the current
environment name (initially `"dev"`). -/
structure ManagerState where
  config : Option JValue
  currentEnvironment : String

/-- `environment || process.env.TEST_ENV || process.env.NODE_ENV || 'dev'`. -/
def resolveEnvName (environment : Option String) (pe : NodeProcEnv) : String :=
  match truthyOpt environment with
  | some s => s
  | none => jsOrStr pe.testEnv (jsOrStr pe.nodeEnv "dev")

/-- `EnvironmentManager.loadEnvironment`, translated from the source:
`currentEnvironment` is assigned *before* any file is read; if loading or
parsing either file throws, the error propagates (re-wrapped) and the
cached `config` field is left untouched. -/
def loadEnvironment (dir : ConfigDir) (pe : NodeProcEnv) (st : ManagerState)
    (environment : Option String) : ManagerState × Except String JValue :=
  match loadConfigFile dir.base with
  | .error _ =>
      ({ st with currentEnvironment := resolveEnvName environment pe },
        .error ("Environment configuration not found for: " ++ resolveEnvName environment pe))
  | .ok baseConfig =>
      match loadConfigFile (dir.envFile (resolveEnvName environment pe)) with
      | .error _ =>
          ({ st with currentEnvironment := resolveEnvName environment pe },
            .error ("Environment configuration not found for: " ++ resolveEnvName environment pe))
      | .ok envConfig =>
          ({ config := some (mergeConfigs baseConfig envConfig),
             currentEnvironment := resolveEnvName environment pe },
            .ok (mergeConfigs baseConfig envConfig))

/-- `EnvironmentManager.getConfig`: a pure read of the cache when present,
otherwise an implicit `loadEnvironment()` with no explicit name. -/
def getConfig (dir : ConfigDir) (pe : NodeProcEnv) (st : ManagerState) :
    ManagerState × Except String JValue :=
  match st.config with
  | some c => (st, .ok c)
  | none => loadEnvironment dir pe st none

/-- `EnvironmentManager.getCurrentEnvironment`. -/
def getCurrentEnvironment (st : ManagerState) : String :=
  st.currentEnvironment

/-- A concrete failed-test record used in witnesses and counterexamples. -/
def sampleFT (n : String) : FailedTest :=
  { scenarioName := n
    featureFile := "f.feature"
    line := 3
    error := "expected title"
    timestamp := "2024-01-01T00:00:00.000Z"
    attempt := 1 }

/-- The spec's description of extraction: one record per scenario having at
least one step with status `"failed"`, whose error is the first failing
step's error message in document order. -/
def specExtractFailures (reportData : List Feature) (now : String) : List FailedTest :=
  reportData.flatMap fun feature =>
    ((feature.elements.getD []).filter fun scenario =>
        (scenario.steps.getD []).any stepFailed).map fun scenario =>
      { scenarioName := scenario.name
        featureFile := jsOrStr feature.uri feature.name
        line := scenario.line.getD 0
        error := jsOrStr ((scenario.steps.getD []).find? stepFailed |>.bind fun st =>
          st.result.bind fun res => res.error_message) "Unknown error"
        timestamp := now
        attempt := 1 }

/-! # Theorems -/

/-- C7: `saveFailedTest` appends — from prior registry contents `L` the
post state is exactly `L ++ [t]`; a second save with an overlapping record
leaves the duplicate in place; no existing entry is removed or modified. -/
theorem C7_persist_appends (L : List FailedTest) (t u : FailedTest) :
    saveFailedTest (.ok L) t = .ok (L ++ [t])
    ∧ getFailedTests (saveFailedTest (.ok L) t) = L ++ [t]
    ∧ saveFailedTest (saveFailedTest (.ok L) t) u = .ok (L ++ [t] ++ [u])
    ∧ saveFailedTest (saveFailedTest (.ok L) t) t = .ok (L ++ [t] ++ [t]) :=
  ⟨rfl, rfl, rfl, rfl⟩

/-- C8: the retry CLI's clear operation is total (the `[[ -f ... ]]` guards
mean no deletion is ever attempted on an absent file, so no error is
raised) and from any state it leaves neither the registry nor the retry
summary behind; applying it twice equals applying it once. -/
theorem C8_clear_idempotent (s : RetryFiles) :
    clear_failed_tests s = { failedTestsFile := false, retryReportFile := false }
    ∧ clear_failed_tests (clear_failed_tests s) = clear_failed_tests s := by
  obtain ⟨f, r⟩ := s
  cases f <;> cases r <;> exact ⟨rfl, rfl⟩

/-- C2 counterexample: for a missing report path and for malformed report
content, `parseFailedTestsFromReport` returns the empty list — i.e. it
*does* silently report zero failures instead of failing with
`ReportNotFoundError` / `ReportParseError`, refuting the claim. -/
theorem C2_counterexample :
    parseFailedTestsFromReport .missing "2024-01-01T00:00:00.000Z" = []
    ∧ parseFailedTestsFromReport .malformed "2024-01-01T00:00:00.000Z" = [] :=
  ⟨rfl, rfl⟩

/-- C2 amended: `parseFailedTestsFromReport` catches both the missing-file
and the malformed-content case internally (logging only) and returns the
empty list, indistinguishable from zero failures; only the CLI script's own
extraction step surfaces a missing report, exiting with status 1. -/
theorem C2_amended (now : String) (envLoaderOk : Bool) (evalPathExit maxRetries : Nat) :
    parseFailedTestsFromReport .missing now = []
    ∧ parseFailedTestsFromReport .malformed now = []
    ∧ retryScriptMain .missing envLoaderOk evalPathExit maxRetries = 1 :=
  ⟨rfl, rfl, rfl⟩

/-- The retry-command generator never emits a command: in every registry
state the embedded node snippet prints nothing — for an existing non-empty
registry because the template literal throws `ReferenceError` on the
node-side `attempt` identifier before `console.log` produces any output,
and otherwise because nothing is printed at all. -/
theorem shellRetryCommand_eq_none (reg : RegistryFile) : shellRetryCommand reg = none := by
  cases reg with
  | missing => rfl
  | malformed => rfl
  | ok failedTests =>
      show generatorStdout (.ok failedTests) none = none
      by_cases h : failedTests.length > 0
      · simp [generatorStdout, retryCommandTemplate, h]
      · simp [generatorStdout, h]

/-- C5 counterexample: a session whose report lists a failing scenario and
whose registry was written exits 0 — the per-attempt command generator
crashes on the unbound `attempt` identifier before printing, so the first
loop iteration takes the empty-command branch and breaks; the scenario is
never re-run and is still failing, yet the exit code is 0, where the claim
requires non-zero.  (The dead eval-branch parameter is 7 to show it cannot
influence the result.) -/
theorem C5_counterexample :
    retryScriptMain (.hasFailures [sampleFT "a"]) true 7 3 = 0 :=
  rfl

/-- C5 amended: the exit code never reflects still-failing scenarios.  A
missing report exits 1 and a clean report exits 0.  In the retry phase the
command generator always crashes on the node-side `attempt` identifier
(left unexpanded by the shell's escaping) and prints nothing, so with the
registry written and the environment loader succeeding the first iteration
breaks and the script exits 0 — whatever failures remain and whatever the
unreachable eval branch would have produced; the only other non-zero exit
is the `set -e` abort (status 1) when the per-attempt environment-loader
invocation fails.  An absent registry skips the loop with exit 0. -/
theorem C5_amended (reg : RegistryFile) (written : List FailedTest)
    (envLoaderOk : Bool) (evalPathExit maxRetries : Nat) :
    retryScriptMain .missing envLoaderOk evalPathExit maxRetries = 1
    ∧ retryScriptMain .noFailures envLoaderOk evalPathExit maxRetries = 0
    ∧ shellRetryCommand reg = none
    ∧ (1 ≤ maxRetries →
        retryScriptMain (.hasFailures written) true evalPathExit maxRetries = 0)
    ∧ (1 ≤ maxRetries →
        retryScriptMain (.hasFailures written) false evalPathExit maxRetries = 1)
    ∧ retryScriptMain (.malformed .missing) envLoaderOk evalPathExit maxRetries = 0 := by
  refine ⟨rfl, rfl, shellRetryCommand_eq_none reg, ?_, ?_, rfl⟩
  · intro hm
    have hne : maxRetries ≠ 0 := by omega
    simp [retryScriptMain, retry_failed_tests, registryFileExists, hne,
      shellRetryCommand_eq_none]
  · intro hm
    have hne : maxRetries ≠ 0 := by omega
    simp [retryScriptMain, retry_failed_tests, registryFileExists, hne]

/-- Witness for C5's amended theorem at one recorded failure and three
allowed attempts: the loader-success run exits 0, the loader-failure run
exits 1. -/
theorem C5_witness :
    retryScriptMain (.hasFailures [sampleFT "x"]) true 5 3 = 0
    ∧ retryScriptMain (.hasFailures [sampleFT "x"]) false 5 3 = 1 := by
  have h := C5_amended (.ok [sampleFT "x"]) [sampleFT "x"] true 5 3
  exact ⟨h.2.2.2.1 (by decide), h.2.2.2.2.1 (by decide)⟩

/-- `stripQuotes` distributes over string append. -/
theorem stripQuotes_append (a b : String) :
    stripQuotes (a ++ b) = stripQuotes a ++ stripQuotes b := by
  unfold stripQuotes
  rw [show (a ++ b).toList = a.toList ++ b.toList from String.data_append a b]
  rw [List.filter_append]
  rfl

/-- Stripping quotes undoes the quote-wrapping of a quote-free string. -/
theorem stripQuotes_quoteWrap (s : String) (h : Char.ofNat 34 ∉ s.toList) :
    stripQuotes (quoteWrap s) = s := by
  show String.mk (List.filter (fun c => c != Char.ofNat 34)
      (Char.ofNat 34 :: (s.toList ++ [Char.ofNat 34]))) = s
  rw [List.filter_cons, List.filter_append]
  rw [if_neg (by simp)]
  rw [List.filter_eq_self.mpr fun c hc => by
    simp only [bne_iff_ne, ne_eq]
    intro heq
    exact h (heq ▸ hc)]
  rw [show List.filter (fun c => c != Char.ofNat 34) [Char.ofNat 34] = [] by simp]
  rw [List.append_nil]
  cases s
  rfl

/-- On quote-free names, stripping the quotes out of the space-join of the
individually quoted names leaves the plain space-join of the names. -/
theorem stripQuotes_jsJoin_quoteWrap (names : List String)
    (h : ∀ n ∈ names, Char.ofNat 34 ∉ n.toList) :
    stripQuotes (jsJoin " " (names.map quoteWrap)) = jsJoin " " names := by
  induction names with
  | nil => rfl
  | cons a rest ih =>
      cases rest with
      | nil => exact stripQuotes_quoteWrap a (h a (by simp))
      | cons b t =>
          show stripQuotes (quoteWrap a ++ " " ++ jsJoin " " ((b :: t).map quoteWrap))
              = a ++ " " ++ jsJoin " " (b :: t)
          rw [stripQuotes_append, stripQuotes_append]
          rw [stripQuotes_quoteWrap a (h a (by simp))]
          rw [ih fun n hn => h n (by simp [hn])]
          rw [show stripQuotes " " = " " from rfl]

/-- C4 counterexample: with recorded failures named `"a"` and `"b"`, the
TS `generateRetryCommand` emits the *single* `--name` pattern `"a b"`
(names space-joined after quote-stripping) — not an OR of exact names —
and that pattern does not select the recorded scenario `"a"` (it does not
occur in `"a"`); the shell script's generator, for its part, crashes on
the unbound `attempt` identifier and emits no retry invocation at all.
So no invocation scoped to exactly the failing names is built. -/
theorem C4_counterexample :
    generateRetryCommand (.ok [sampleFT "a", sampleFT "b"])
      = some "cucumber-js f.feature --name \"a b\""
    ∧ strHasSeg "a" "a b" = false
    ∧ shellRetryCommand (.ok [sampleFT "a", sampleFT "b"]) = none :=
  ⟨by decide, by decide, by decide⟩

/-- C4 amended: the TS `generateRetryCommand` scopes the run to a single
`--name` pattern that is the space-join of the recorded failing scenario
names (quote-wrapping then quote-stripping cancel on quote-free names),
rather than an exact-match OR of them; the shell script's per-attempt
generator always crashes on the unexpanded `attempt` identifier and emits
no command, so no shell retry invocation is ever built or executed. -/
theorem C4_amended (failedTests : List FailedTest) (hne : failedTests ≠ [])
    (hq : ∀ t ∈ failedTests, Char.ofNat 34 ∉ t.scenarioName.toList) :
    generateRetryCommand (.ok failedTests)
      = some ("cucumber-js "
          ++ jsJoin " " (jsSetDedup (failedTests.map fun t => t.featureFile))
          ++ " --name "
          ++ quoteWrap (jsJoin " " (failedTests.map fun t => t.scenarioName)))
    ∧ shellRetryCommand (.ok failedTests) = none := by
  refine ⟨?_, shellRetryCommand_eq_none _⟩
  show (if failedTests.length = 0 then none else
      some ("cucumber-js "
        ++ jsJoin " " (jsSetDedup (failedTests.map fun test => test.featureFile))
        ++ " --name "
        ++ quoteWrap (stripQuotes
            (jsJoin " " (failedTests.map fun test => quoteWrap test.scenarioName)))))
    = _
  rw [if_neg fun hlen => hne (List.length_eq_zero.mp hlen)]
  have hmaps : failedTests.map (fun test => quoteWrap test.scenarioName)
      = (failedTests.map fun t => t.scenarioName).map quoteWrap := by
    rw [List.map_map]
    rfl
  rw [hmaps, stripQuotes_jsJoin_quoteWrap _ fun n hn => by
    obtain ⟨t, ht, hteq⟩ := List.mem_map.mp hn
    exact hteq ▸ hq t ht]

/-- Witness for C4's amended theorem at a singleton registry with a
quote-free name. -/
theorem C4_witness :
    shellRetryCommand (.ok [sampleFT "Search for user A"]) = none :=
  (C4_amended [sampleFT "Search for user A"] (by decide) (by decide)).2

/-- C9: `loadEnvironment` is not atomic on failure — when loading throws
(missing or unparsable base/environment file), the cached config is left
untouched (a later `getConfig` still yields the previously loaded value),
yet `getCurrentEnvironment` already reports the failed environment's
resolved name, because `currentEnvironment` is assigned before any file is
read. -/
theorem C9_loadEnvironment_not_atomic (dir : ConfigDir) (pe : NodeProcEnv)
    (st : ManagerState) (environment : Option String)
    (herr : (loadEnvironment dir pe st environment).2.isOk = false) :
    (loadEnvironment dir pe st environment).1.config = st.config
    ∧ getCurrentEnvironment (loadEnvironment dir pe st environment).1
        = resolveEnvName environment pe
    ∧ ∀ c, st.config = some c →
        (getConfig dir pe (loadEnvironment dir pe st environment).1).2 = .ok c := by
  unfold loadEnvironment at herr ⊢
  cases hb : loadConfigFile dir.base with
  | error e =>
      simp only [hb] at herr ⊢
      exact ⟨by simp [getCurrentEnvironment], by simp [getCurrentEnvironment],
        fun c hc => by simp [getConfig, hc]⟩
  | ok baseConfig =>
      simp only [hb] at herr ⊢
      cases he : loadConfigFile (dir.envFile (resolveEnvName environment pe)) with
      | error e2 =>
          simp only [he] at herr ⊢
          exact ⟨by simp [getCurrentEnvironment], by simp [getCurrentEnvironment],
            fun c hc => by simp [getConfig, hc]⟩
      | ok envConfig =>
          simp only [he] at herr
          simp [Except.toBool] at herr

/-- Witness for C9 at a concrete state: base file missing, a previously
cached config, explicit environment `"staging"`. -/
theorem C9_witness :
    (loadEnvironment ⟨.missing, fun _ => .missing⟩ ⟨none, none⟩
        ⟨some (JValue.str "cached"), "dev"⟩ (some "staging")).1.config
      = some (JValue.str "cached")
    ∧ getCurrentEnvironment (loadEnvironment ⟨.missing, fun _ => .missing⟩ ⟨none, none⟩
        ⟨some (JValue.str "cached"), "dev"⟩ (some "staging")).1 = "staging"
    ∧ (getConfig ⟨.missing, fun _ => .missing⟩ ⟨none, none⟩
        (loadEnvironment ⟨.missing, fun _ => .missing⟩ ⟨none, none⟩
          ⟨some (JValue.str "cached"), "dev"⟩ (some "staging")).1).2
      = .ok (JValue.str "cached") := by
  have h := C9_loadEnvironment_not_atomic ⟨.missing, fun _ => .missing⟩ ⟨none, none⟩
    ⟨some (JValue.str "cached"), "dev"⟩ (some "staging") rfl
  exact ⟨h.1, h.2.1.trans rfl, h.2.2 (JValue.str "cached") rfl⟩

/-- A `filterMap` whose function is a guarded `some` is a `filter` followed
by a `map`. -/
theorem filterMap_ite_eq_filter_map {α β : Type} (p : α → Bool) (g : α → β) (l : List α) :
    (l.filterMap fun a => if p a then some (g a) else none) = (l.filter p).map g := by
  induction l with
  | nil => rfl
  | cons a l ih =>
      rw [List.filterMap_cons, List.filter_cons]
      by_cases h : p a
      · simp [h, ih]
      · simp [h, ih]

/-- C1: `parseFailedTestsFromReport` on a parsed report coincides with the
spec's description — one `FailedTest` per scenario having some step with
status `"failed"` (any other status counts as not failed), in document
order, with the error taken from the first failing step — and it returns
`[]` exactly when no scenario has a failing step. -/
theorem C1_extractFailures (reportData : List Feature) (now : String) :
    parseFailedTestsFromReport (.parsed reportData) now = specExtractFailures reportData now
    ∧ (parseFailedTestsFromReport (.parsed reportData) now = [] ↔
        ∀ feature ∈ reportData, ∀ scenario ∈ feature.elements.getD ([] : List Scenario),
          (scenario.steps.getD []).any stepFailed = false) := by
  constructor
  · show List.flatMap reportData _ = specExtractFailures reportData now
    unfold specExtractFailures
    refine congrArg (List.flatMap reportData) (funext fun feature => ?_)
    exact filterMap_ite_eq_filter_map _ _ _
  · rw [show parseFailedTestsFromReport (.parsed reportData) now
        = List.flatMap reportData (fun feature =>
            (feature.elements.getD []).filterMap fun scenario =>
              if (scenario.steps.getD []).any stepFailed then
                some { scenarioName := scenario.name
                       featureFile := jsOrStr feature.uri feature.name
                       line := scenario.line.getD 0
                       error := jsOrStr (((scenario.steps.getD []).find? stepFailed).bind fun st =>
                         st.result.bind fun res => res.error_message) "Unknown error"
                       timestamp := now
                       attempt := 1 }
              else none) from rfl]
    rw [List.flatMap_eq_nil_iff]
    constructor
    · intro h feature hf scenario hs
      have h2 := (List.filterMap_eq_nil_iff.mp (h feature hf)) scenario hs
      by_cases hfail : (scenario.steps.getD []).any stepFailed
      · rw [if_pos hfail] at h2; cases h2
      · simpa using hfail
    · intro h feature hf
      rw [List.filterMap_eq_nil_iff]
      intro scenario hs
      rw [if_neg (by simp [h feature hf scenario hs])]

/-- C3: for a retry session with `N > 0` original failures and `M ≤ N`
still failing, the summary has `recovered = N - M`; `successRate` is the
exact percentage `(N-M)/N*100` rounded to the nearest hundredth (within
`1/200`, with exactly two decimals); and the recovered records are exactly
the original failing names that are absent from the still-failing names. -/
theorem C3_retry_summary (originalFailed retryResults : List FailedTest) (now : String)
    (_hpos : 0 < originalFailed.length)
    (hle : retryResults.length ≤ originalFailed.length) :
    (generateRetryReport originalFailed retryResults now).originalFailures
        = originalFailed.length
    ∧ (generateRetryReport originalFailed retryResults now).stillFailing
        = retryResults.length
    ∧ (generateRetryReport originalFailed retryResults now).recovered
        = ((originalFailed.length - retryResults.length : Nat) : Int)
    ∧ (∃ k : ℤ, (generateRetryReport originalFailed retryResults now).successRate
        = (k : ℚ) / 100)
    ∧ ((((originalFailed.length - retryResults.length : Nat) : ℚ)
          / (originalFailed.length : ℚ) * 100) - 1 / 200
        < (generateRetryReport originalFailed retryResults now).successRate
      ∧ (generateRetryReport originalFailed retryResults now).successRate
        ≤ ((((originalFailed.length - retryResults.length : Nat) : ℚ)
            / (originalFailed.length : ℚ) * 100) + 1 / 200))
    ∧ ∀ name : String,
        name ∈ ((generateRetryReport originalFailed retryResults now).recoveredDetails.map
            fun t => t.scenarioName)
          ↔ name ∈ (originalFailed.map fun t => t.scenarioName)
            ∧ name ∉ (retryResults.map fun t => t.scenarioName) := by
  have hcast : ((originalFailed.length - retryResults.length : Nat) : ℚ)
      = ((originalFailed.length : ℚ) - (retryResults.length : ℚ)) := by
    push_cast [hle]; ring
  have hrate : (generateRetryReport originalFailed retryResults now).successRate
      = jsToFixed2 (((originalFailed.length - retryResults.length : Nat) : ℚ)
          / (originalFailed.length : ℚ) * 100) := by
    show jsToFixed2 _ = jsToFixed2 _
    refine congrArg jsToFixed2 ?_
    rw [hcast]; push_cast; ring
  refine ⟨rfl, rfl, ?_, ?_, ?_, ?_⟩
  · show (originalFailed.length : Int) - (retryResults.length : Int) = _
    omega
  · exact ⟨_, hrate⟩
  · set y : ℚ := ((originalFailed.length - retryResults.length : Nat) : ℚ)
        / (originalFailed.length : ℚ) * 100 with hy
    have h1 := Int.floor_le (y * 100 + 1 / 2)
    have h2 := Int.lt_floor_add_one (y * 100 + 1 / 2)
    rw [hrate]
    unfold jsToFixed2
    constructor <;> [linarith; linarith]
  · intro name
    show name ∈ ((originalFailed.filter fun original =>
        ! retryResults.any fun retry => retry.scenarioName == original.scenarioName).map
          fun t => t.scenarioName) ↔ _
    simp only [List.mem_map, List.mem_filter, Bool.not_eq_true', List.any_eq_false,
      beq_iff_eq]
    constructor
    · rintro ⟨t, ⟨ht, hnone⟩, rfl⟩
      refine ⟨⟨t, ht, rfl⟩, ?_⟩
      rintro ⟨r, hr, hname⟩
      exact hnone r hr hname
    · rintro ⟨⟨t, ht, rfl⟩, hnot⟩
      exact ⟨t, ⟨ht, fun r hr heq => hnot ⟨r, hr, heq⟩⟩, rfl⟩

/-- Witness for C3 at four original failures, one still failing. -/
theorem C3_witness :
    (generateRetryReport [sampleFT "A", sampleFT "B", sampleFT "C", sampleFT "D"]
        [sampleFT "B"] "t").recovered = ((4 - 1 : Nat) : Int) :=
  (C3_retry_summary [sampleFT "A", sampleFT "B", sampleFT "C", sampleFT "D"]
    [sampleFT "B"] "t" (by decide) (by decide)).2.2.1

/-- C6 counterexample: the recommendation is not always a positive integer
bounded by 8.  On a 1-CPU machine with 0.25 GB of memory (no CI, no
override) the memory clamp `floor(totalMemoryGB / 0.5) = 0` drives the
result to 0; and in CI with `CI_WORKERS=100` the override is used without
any cap, giving 100 > 8. -/
theorem C6_counterexample :
    getRecommendedWorkerCount
        { ciVar := none, githubActions := none, jenkinsUrl := none, buildkite := none,
          circleci := none, ciWorkers := none, cucumberWorkers := none,
          playwrightWorkers := none, cpuCount := 1, totalMemBytes := 2 ^ 28 } = some 0
    ∧ getRecommendedWorkerCount
        { ciVar := some "true", githubActions := none, jenkinsUrl := none, buildkite := none,
          circleci := none, ciWorkers := some "100", cucumberWorkers := none,
          playwrightWorkers := none, cpuCount := 8, totalMemBytes := 16 * 2 ^ 30 } = some 100 := by
  exact ⟨by decide, by decide⟩

/-- C6 amended: outside CI and with no worker-count override, the
recommendation equals `min(max(1, floor(cpuCount*0.5)), floor(totalMemoryGB
/ 0.5), 8)` (memory given in bytes, `/ 2^29` being the exact translation of
the two divisions), and whenever total memory is at least 0.5 GB this value
is a positive integer not exceeding 8.  (An explicit override that parses
takes precedence, clamped below by 1 but not clamped to 8.) -/
theorem C6_amended (e : SysEnv) (hci : isCI e = false)
    (hov : truthyOpt (jsOrOpt e.cucumberWorkers e.playwrightWorkers) = none)
    (hmem : 2 ^ 29 ≤ e.totalMemBytes) :
    getRecommendedWorkerCount e
        = some ((min (min (max 1 (e.cpuCount / 2)) (e.totalMemBytes / 2 ^ 29)) 8 : Nat))
    ∧ 1 ≤ min (min (max 1 (e.cpuCount / 2)) (e.totalMemBytes / 2 ^ 29)) 8
    ∧ min (min (max 1 (e.cpuCount / 2)) (e.totalMemBytes / 2 ^ 29)) 8 ≤ 8 := by
  refine ⟨?_, ?_, min_le_right _ 8⟩
  · rw [show getRecommendedWorkerCount e = some (getWorkerCount e : Int) by
      simp [getRecommendedWorkerCount, hci]]
    rw [show getWorkerCount e = getOptimalWorkerCount e by
      simp [getWorkerCount, hov]]
    rfl
  · have hm : 1 ≤ e.totalMemBytes / 2 ^ 29 :=
      (Nat.one_le_div_iff (by norm_num)).mpr hmem
    have hc : 1 ≤ max 1 (e.cpuCount / 2) := le_max_left 1 _
    omega

/-- Witness for C6's amended theorem: 8 CPUs, 16 GB, not CI, no override
recommends 4 workers. -/
theorem C6_witness :
    getRecommendedWorkerCount
        { ciVar := none, githubActions := none, jenkinsUrl := none, buildkite := none,
          circleci := none, ciWorkers := none, cucumberWorkers := none,
          playwrightWorkers := none, cpuCount := 8, totalMemBytes := 16 * 2 ^ 30 } = some 4 := by
  have h := (C6_amended
    { ciVar := none, githubActions := none, jenkinsUrl := none, buildkite := none,
      circleci := none, ciWorkers := none, cucumberWorkers := none,
      playwrightWorkers := none, cpuCount := 8, totalMemBytes := 16 * 2 ^ 30 }
    rfl rfl (by norm_num)).1
  rw [h]
  norm_num

/-- The round-robin fold preserves the number of chunks. -/
theorem rrFold_length {α : Type} (w : Nat) (ps : List (Nat × α)) (cs : List (List α)) :
    (ps.foldl (rrStep w) cs).length = cs.length := by
  induction ps generalizing cs with
  | nil => rfl
  | cons p ps ih =>
      rw [List.foldl_cons, ih]
      simp [rrStep]

/-- Reading an updated slot. -/
theorem getD_set_self {β : Type} (l : List β) (i : Nat) (v d : β) (h : i < l.length) :
    (l.set i v).getD i d = v := by
  rw [List.getD_eq_getElem?_getD, List.getElem?_set, if_pos rfl, if_pos h]
  rfl

/-- Reading a slot other than the updated one. -/
theorem getD_set_other {β : Type} (l : List β) (i j : Nat) (v d : β) (h : i ≠ j) :
    (l.set i v).getD j d = l.getD j d := by
  rw [List.getD_eq_getElem?_getD, List.getElem?_set, if_neg h, ← List.getD_eq_getElem?_getD]

/-- After folding the enumerated input through `rrStep`, chunk `r` holds its
initial content followed by the elements whose index is congruent to `r`
modulo `w`, in input order. -/
theorem rrFold_getD {α : Type} (w : Nat) (ps : List (Nat × α)) :
    ∀ (cs : List (List α)) (r : Nat), r < cs.length →
      (ps.foldl (rrStep w) cs).getD r []
        = cs.getD r [] ++ (ps.filter fun p => p.1 % w == r).map Prod.snd := by
  induction ps with
  | nil => intro cs r _; simp
  | cons p ps ih =>
      intro cs r hr
      rw [List.foldl_cons, List.filter_cons]
      rw [ih (rrStep w cs p) r (by simpa [rrStep] using hr)]
      by_cases hpr : p.1 % w = r
      · rw [if_pos (by simpa using hpr)]
        have hstep : (rrStep w cs p).getD r [] = cs.getD r [] ++ [p.2] := by
          unfold rrStep
          rw [hpr, getD_set_self _ _ _ _ hr]
        rw [hstep, List.map_cons]
        simp
      · rw [if_neg (by simpa using hpr)]
        have hstep : (rrStep w cs p).getD r [] = cs.getD r [] := by
          unfold rrStep
          exact getD_set_other _ _ _ _ _ hpr
        rw [hstep]

/-- `splitScenariosAcrossWorkers` equals the nonempty residue chunks, in
residue order. -/
theorem split_eq_residue {α : Type} (l : List α) (w : Nat) :
    splitScenariosAcrossWorkers l w
      = (((List.range w).map fun r => residueChunk l w r).filter
          fun c => decide (0 < c.length)) := by
  show (l.enum.foldl (rrStep w) ((List.range w).map fun _ => ([] : List α))).filter
        (fun c => decide (0 < c.length))
      = _
  congr 1
  refine List.ext_getElem ?_ ?_
  · rw [rrFold_length]; simp
  · intro n h1 h2
    have hn : n < w := by simpa using h2
    have hcs : n < ((List.range w).map fun _ => ([] : List α)).length := by simpa using hn
    rw [← List.getD_eq_getElem _ ([] : List α) h1]
    rw [rrFold_getD w l.enum ((List.range w).map fun _ => ([] : List α)) n hcs]
    rw [List.getD_eq_getElem _ _ hcs]
    rw [List.getElem_map, List.getElem_map, List.getElem_range]
    simp [residueChunk]

/-- Counting the indices below `n` in residue class `r` modulo `w`. -/
theorem range_filter_mod_length (w : Nat) (hw : 0 < w) (r : Nat) (hr : r < w) (n : Nat) :
    ((List.range n).filter fun i => i % w == r).length
      = n / w + if r < n % w then 1 else 0 := by
  induction n with
  | zero => simp
  | succ n ih =>
      rw [List.range_succ, List.filter_append, List.length_append, ih]
      have hsing : (List.filter (fun i => i % w == r) [n]).length
          = if n % w = r then 1 else 0 := by
        by_cases hnr : n % w = r <;> simp [hnr]
      rw [hsing]
      have hm : n % w < w := Nat.mod_lt n hw
      have hdm := Nat.div_add_mod n w
      by_cases hc : n % w + 1 = w
      · have hkey : n + 1 = w * (n / w + 1) := by
          have h1 : n + 1 = w * (n / w) + (n % w + 1) := by omega
          rw [h1, hc]; ring
        have hmod : (n + 1) % w = 0 := by rw [hkey]; exact Nat.mul_mod_right _ _
        have hdiv : (n + 1) / w = n / w + 1 := by rw [hkey]; exact Nat.mul_div_cancel_left _ hw
        rw [hmod, hdiv]
        split_ifs <;> omega
      · have hlt : n % w + 1 < w := by omega
        have hkey : n + 1 = (n % w + 1) + w * (n / w) := by omega
        have hmod : (n + 1) % w = n % w + 1 := by
          rw [hkey, Nat.add_mul_mod_self_left, Nat.mod_eq_of_lt hlt]
        have hdiv : (n + 1) / w = n / w := by
          rw [hkey, Nat.add_mul_div_left _ _ hw, Nat.div_eq_of_lt hlt, Nat.zero_add]
        rw [hmod, hdiv]
        split_ifs <;> omega

/-- The length of a residue chunk. -/
theorem residueChunk_length {α : Type} (l : List α) (w : Nat) (hw : 0 < w)
    (r : Nat) (hr : r < w) :
    (residueChunk l w r).length = l.length / w + if r < l.length % w then 1 else 0 := by
  unfold residueChunk
  rw [List.length_map]
  have hswap : ((List.range l.length).filter fun i => i % w == r).length
      = (l.enum.filter fun p => p.1 % w == r).length := by
    rw [← List.enum_map_fst l, List.filter_map, List.length_map]
    rfl
  rw [← hswap, range_filter_mod_length w hw r hr]

/-- A list sum over `List.range` is a `Finset.range` sum. -/
theorem listSum_range_map (f : ℕ → ℕ) (n : ℕ) :
    ((List.range n).map f).sum = ∑ r in Finset.range n, f r := by
  induction n with
  | zero => rfl
  | succ n ih =>
      rw [List.range_succ, List.map_append, List.sum_append, Finset.sum_range_succ, ih]
      simp

/-- Dropping the empty chunks does not change the total length. -/
theorem sum_lengths_filter_pos {α : Type} (L : List (List α)) :
    ((L.filter fun c => decide (0 < c.length)).map List.length).sum
      = (L.map List.length).sum := by
  induction L with
  | nil => rfl
  | cons c L ih =>
      rw [List.filter_cons, List.map_cons, List.sum_cons]
      by_cases h : 0 < c.length
      · rw [if_pos (by simpa using h), List.map_cons, List.sum_cons, ih]
      · rw [if_neg (by simpa using h), ih]
        omega

/-- The residue chunks together hold exactly the input elements. -/
theorem residue_total {α : Type} (l : List α) (w : Nat) (hw : 0 < w) :
    (((List.range w).map fun r => residueChunk l w r).map List.length).sum = l.length := by
  rw [List.map_map]
  rw [listSum_range_map (List.length ∘ fun r => residueChunk l w r) w]
  simp only [Function.comp]
  rw [Finset.sum_congr rfl fun r hr =>
    residueChunk_length l w hw r (Finset.mem_range.mp hr)]
  rw [Finset.sum_add_distrib, Finset.sum_const, Finset.card_range, smul_eq_mul]
  have hm : l.length % w < w := Nat.mod_lt _ hw
  have hsum2 : (∑ r in Finset.range w, if r < l.length % w then 1 else 0)
      = l.length % w := by
    have hstep : ∀ r : ℕ, (if r < l.length % w then 1 else 0)
        = if r ∈ Finset.range (l.length % w) then 1 else 0 := by
      intro r; simp [Finset.mem_range]
    rw [Finset.sum_congr rfl fun r _ => hstep r]
    rw [Finset.sum_ite_mem]
    rw [Finset.inter_eq_right.mpr (Finset.range_subset.mpr (le_of_lt hm))]
    simp
  rw [hsum2]
  exact Nat.div_add_mod l.length w

/-- C10: for any scenario list and `workerCount ≥ 1`,
`splitScenariosAcrossWorkers` returns exactly the nonempty round-robin
residue chunks (element at index `i` goes to chunk `i % workerCount`,
input order preserved within a chunk); no returned chunk is empty; at most
`workerCount` chunks are returned; the chunk lengths sum to the input
length (each element lands in exactly one chunk); and any two chunk sizes
differ by at most one. -/
theorem C10_split_partition {α : Type} (l : List α) (w : Nat) (hw : 1 ≤ w) :
    splitScenariosAcrossWorkers l w
        = (((List.range w).map fun r => residueChunk l w r).filter
            fun c => decide (0 < c.length))
    ∧ (splitScenariosAcrossWorkers l w).length ≤ w
    ∧ (∀ c ∈ splitScenariosAcrossWorkers l w, 0 < c.length)
    ∧ ((splitScenariosAcrossWorkers l w).map List.length).sum = l.length
    ∧ ∀ c₁ ∈ splitScenariosAcrossWorkers l w, ∀ c₂ ∈ splitScenariosAcrossWorkers l w,
        c₁.length ≤ c₂.length + 1 := by
  have hw0 : 0 < w := hw
  have hchar := split_eq_residue l w
  refine ⟨hchar, ?_, ?_, ?_, ?_⟩
  · rw [hchar]
    calc (((List.range w).map fun r => residueChunk l w r).filter
          fun c => decide (0 < c.length)).length
        ≤ ((List.range w).map fun r => residueChunk l w r).length :=
          List.length_filter_le _ _
      _ = w := by simp
  · intro c hc
    rw [hchar] at hc
    simpa using (List.mem_filter.mp hc).2
  · rw [hchar, sum_lengths_filter_pos, residue_total l w hw0]
  · intro c₁ h₁ c₂ h₂
    rw [hchar] at h₁ h₂
    obtain ⟨r₁, hr₁, rfl⟩ := List.mem_map.mp (List.mem_filter.mp h₁).1
    obtain ⟨r₂, hr₂, rfl⟩ := List.mem_map.mp (List.mem_filter.mp h₂).1
    rw [residueChunk_length l w hw0 r₁ (by simpa using hr₁),
      residueChunk_length l w hw0 r₂ (by simpa using hr₂)]
    split_ifs <;> omega

/-- Witness for C10: five scenarios across two workers — all five elements
are distributed. -/
theorem C10_witness :
    ((splitScenariosAcrossWorkers [10, 20, 30, 40, 50] 2).map List.length).sum = 5 :=
  (C10_split_partition [10, 20, 30, 40, 50] 2 (by decide)).2.2.2.1
